import Mathlib

/-!
Verification development for the GH-tickets dashboard server
(`src/server/index.ts`).  The server enriches GitHub project items and
issues with AI-derived annotations, caching inference results in SQLite
keyed by a content fingerprint, fetching paged data from the GitHub
GraphQL API with page ceilings, and enriching records in fixed-size
concurrent batches.

Shallow embedding conventions:
* JS strings are modelled as `List Char` (`Str`); `body.length` is the
  list length, matching the code-unit length for the ASCII inputs the
  fingerprints are built from.
* Timestamps (`Date.now()`) are `Nat` milliseconds.
* The SQLite `ai_timeline_cache` table is an association list keyed by
  the fingerprint string; `INSERT OR REPLACE` is modelled by consing the
  new row and dropping the old row for the key.
* Calls to the external OpenAI service are modelled by passing the
  service's response (or its error) as an explicit oracle argument; each
  gateway operation returns the value produced, the updated cache, and a
  flag recording whether an external call was issued.
-/

namespace GHTickets

/-- JS strings, modelled as lists of characters. -/
abbrev Str := List Char

/-- Whitespace test used by the model of `String.prototype.trim`
(ASCII whitespace; the inputs fed to `trim` in the server are ASCII). -/
def jsIsWS (c : Char) : Bool :=
  c == ' ' || c == '\t' || c == '\n' || c == '\r'

/-- Model of `s.trim()`: strip leading and trailing whitespace. -/
def jsTrim (s : Str) : Str :=
  ((s.dropWhile jsIsWS).reverse.dropWhile jsIsWS).reverse

/-- Model of `s.toLowerCase()` (ASCII case folding). -/
def jsLower (s : Str) : Str := s.map Char.toLower

/-- Model of testing whether `s` starts with `sub`. -/
def strStartsWith : Str → Str → Bool
  | _, [] => true
  | [], _ :: _ => false
  | c :: s, d :: sub => c == d && strStartsWith s sub

/-- Model of `s.includes(sub)`: some tail of `s` starts with `sub`. -/
def jsIncludes (s sub : Str) : Bool :=
  s.tails.any (fun t => strStartsWith t sub)

/-- Character class `[a-zA-Z0-9]` of the fingerprint regex in
`getCacheKey` (src/server/index.ts:706). -/
def jsAlnum (c : Char) : Bool :=
  ('a' ≤ c && c ≤ 'z') || ('A' ≤ c && c ≤ 'Z') || ('0' ≤ c && c ≤ '9')

/-- Model of `title.replace(/[^a-zA-Z0-9]/g, '_').substring(0, n)`:
every non-alphanumeric character becomes an underscore, then the result
is truncated to `n` characters. -/
def normalizeTitleN (n : Nat) (t : Str) : Str :=
  (t.map (fun c => if jsAlnum c then c else '_')).take n

/-- Decimal digit character, as produced by JS number-to-string
conversion of a nonnegative integer digit. -/
def digitChar (n : Nat) : Char := Char.ofNat (48 + n)

/-- Fuel-driven decimal rendering of a natural number (most significant
digit first).  The fuel is only a structural-termination device; with
`fuel > n` it never runs out. -/
def natDigitsGo : Nat → Nat → Str
  | 0, _ => []
  | fuel + 1, n =>
    if n < 10 then [digitChar n]
    else natDigitsGo fuel (n / 10) ++ [digitChar (n % 10)]

/-- Model of JS template interpolation of a nonnegative integer, e.g.
the body length interpolated into the fingerprint string. -/
def natDigits (n : Nat) : Str := natDigitsGo (n + 1) n

/-- Model of `getCacheKey` (src/server/index.ts:704-707): the normalized
title truncated to 50 characters, an underscore, then the decimal body
length. -/
def getCacheKey (title body : Str) : Str :=
  normalizeTitleN 50 title ++ '_' :: natDigits body.length

/-- Row of the `ai_timeline_cache` table (interface `CacheEntry`,
src/server/index.ts:610-614). -/
structure CacheEntry where
  result : Option Str
  timestamp : Nat
  failed : Bool
deriving DecidableEq, Repr

/-- The `ai_timeline_cache` table: an association list from fingerprint
keys to entries (most recent write for a key first). -/
abbrev Cache := List (Str × CacheEntry)

/-- Model of `loadAICache` (src/server/index.ts:629-641): the entry
stored for the key, if any. -/
def loadAICache (c : Cache) (key : Str) : Option CacheEntry :=
  (c.find? (fun p => p.1 == key)).map (fun p => p.2)

/-- Model of `saveAICache` (src/server/index.ts:643-649): upsert of the
row for `key` (`INSERT OR REPLACE`), timestamped with the current time. -/
def saveAICache (c : Cache) (key : Str) (result : Option Str) (now : Nat)
    (failed : Bool) : Cache :=
  (key, ⟨result, now, failed⟩) :: c.filter (fun p => !(p.1 == key))

/-- `CACHE_DURATION`: 24 hours in milliseconds. -/
def CACHE_DURATION : Nat := 24 * 60 * 60 * 1000

/-- `GITHUB_CACHE_DURATION`: 24 hours in milliseconds. -/
def GITHUB_CACHE_DURATION : Nat := 24 * 60 * 60 * 1000

/-- The failure cooldown window used inside the gateway operations:
one minute in milliseconds. -/
def ONE_MINUTE : Nat := 60 * 1000

/-- Model of `isCacheValid` (src/server/index.ts:710-712). -/
def isCacheValid (now : Nat) (entry : CacheEntry) : Bool :=
  decide (now - entry.timestamp < CACHE_DURATION)

/-- The sentinel failure value returned by the timeline extraction
operation. -/
def failureSentinel : Str := "OpenAI extraction failed".toList

/-- Outcome of one external inference call for timeline extraction:
either the request threw, or it returned with
`response.choices[0]?.message?.content` (possibly absent). -/
inductive AIResp where
  | err : AIResp
  | ok (content : Option Str) : AIResp
deriving DecidableEq, Repr

/-- The post-processing of a successful timeline response
(src/server/index.ts:894-896): trim the content; treat a missing/empty
response, a literal `none` answer, or an answer containing
`no timeline` as a null result. -/
def finalTimelineResult (content : Option Str) : Option Str :=
  match content with
  | none => none
  | some s =>
    let r := jsTrim s
    if r.isEmpty || (jsLower r == "none".toList)
        || jsIncludes (jsLower r) "no timeline".toList then none
    else some r

/-- Result of one run of a gateway operation: the value returned to the
caller, the cache afterwards, and whether an external call was issued. -/
structure ExtractOut where
  result : Option Str
  cache : Cache
  madeCall : Bool
deriving DecidableEq, Repr

/-- The cache-or-call policy block that all three gateway operations
repeat verbatim (src/server/index.ts:835-850, 1012-1032, 1514-1535):
a valid non-failed entry is returned as-is with no call; a failed entry
younger than one minute returns `cooldownResult` with no call; a failed
stale entry, an expired entry, or a cache miss proceeds to `callPath`
(the external call). -/
def gatewayStep (cache : Cache) (now : Nat) (cacheKey : Str)
    (cooldownResult : Option Str) (callPath : ExtractOut) : ExtractOut :=
  match loadAICache cache cacheKey with
  | some cached =>
    if isCacheValid now cached then
      if cached.failed then
        if now - cached.timestamp < ONE_MINUTE then
          ⟨cooldownResult, cache, false⟩
        else callPath
      else ⟨cached.result, cache, false⟩
    else callPath
  | none => callPath

/-- The external-call branch of `extractAvailabilityDateWithAI`
(src/server/index.ts:852-909): on error persist a failed null entry and
return the sentinel; on success persist and return the post-processed
result. -/
def timelineCallPath (cache : Cache) (now : Nat) (cacheKey : Str)
    (resp : AIResp) : ExtractOut :=
  match resp with
  | .err =>
    ⟨some failureSentinel, saveAICache cache cacheKey none now true, true⟩
  | .ok content =>
    let finalResult := finalTimelineResult content
    ⟨finalResult, saveAICache cache cacheKey finalResult now false, true⟩

/-- Model of `extractAvailabilityDateWithAI` (src/server/index.ts:829-910).
An empty (after trimming) body short-circuits to `null` with no cache
access and no call; otherwise the cache-or-call policy runs on the
fingerprint, with the failure sentinel as the cooldown value. -/
def extractAvailabilityDateWithAI (cache : Cache) (now : Nat)
    (body title : Str) (resp : AIResp) : ExtractOut :=
  if jsTrim body = [] then ⟨none, cache, false⟩
  else
    let cacheKey := getCacheKey title body
    gatewayStep cache now cacheKey (some failureSentinel)
      (timelineCallPath cache now cacheKey resp)

/-- Author of a GitHub comment (`login`, optional display `name`). -/
structure Author where
  login : Str
  name : Option Str
deriving DecidableEq, Repr

/-- GitHub issue comment as used by the server: optional author (GitHub
returns `null` authors for deleted accounts), body, creation time (the
`getTime()` millisecond value of `createdAt`), and URL. -/
structure Comment where
  author : Option Author
  body : Str
  createdAt : Nat
  url : Str
deriving DecidableEq, Repr

/-- Filter applied in `extractEtaFromComments`
(src/server/index.ts:998-1003): keep comments that have an author, a
non-blank body, and whose author is one of the record's assignees. -/
def isMsComment (assigneeLogins : List Str) (c : Comment) : Bool :=
  match c.author with
  | some a =>
    !c.body.isEmpty && !(jsTrim c.body).isEmpty
      && assigneeLogins.contains a.login
  | none => false

/-- Fingerprint of the ETA extraction task (src/server/index.ts:1009):
`eta_` + normalized title (30 chars) + comment count + total comment
length. -/
def etaKey (title : Str) (count totalLen : Nat) : Str :=
  "eta_".toList ++ normalizeTitleN 30 title
    ++ '_' :: natDigits count ++ '_' :: natDigits totalLen

/-- Outcome of the external call inside the ETA extraction, abstracting
the prompt and JSON parsing (src/server/index.ts:1087-1131): the request
threw; the response content was missing/empty; the content failed to
JSON-parse (after code-fence stripping); the parsed object had
`date`/`text` missing or `None`; or a complete result was assembled and
serialized as `payload` (the `JSON.stringify(finalResult)` string). -/
inductive EtaResp where
  | err : EtaResp
  | okEmpty : EtaResp
  | okUnparseable : EtaResp
  | okNoDate : EtaResp
  | okParsed (payload : Str) : EtaResp
deriving DecidableEq, Repr

/-- The external-call branch of `extractEtaFromComments`
(src/server/index.ts:1034-1136): thrown errors and unparseable content
persist a failed null entry; an empty or date-less response persists a
non-failed null entry; a complete result persists its serialization. -/
def etaCallPath (cache : Cache) (now : Nat) (cacheKey : Str)
    (resp : EtaResp) : ExtractOut :=
  match resp with
  | .err => ⟨none, saveAICache cache cacheKey none now true, true⟩
  | .okEmpty => ⟨none, saveAICache cache cacheKey none now false, true⟩
  | .okUnparseable => ⟨none, saveAICache cache cacheKey none now true, true⟩
  | .okNoDate => ⟨none, saveAICache cache cacheKey none now false, true⟩
  | .okParsed payload =>
    ⟨some payload, saveAICache cache cacheKey (some payload) now false, true⟩

/-- The `msComments` list of `extractEtaFromComments`
(src/server/index.ts:998-1003). -/
def msCommentsOf (assigneeLogins : List Str) (comments : List Comment) :
    List Comment :=
  comments.filter (isMsComment assigneeLogins)

/-- The fingerprint `extractEtaFromComments` computes for a record
(src/server/index.ts:1007-1009): comment count and summed body length of
the assignee comments. -/
def etaKeyOf (title : Str) (assigneeLogins : List Str)
    (comments : List Comment) : Str :=
  etaKey title (msCommentsOf assigneeLogins comments).length
    ((msCommentsOf assigneeLogins comments).map
      (fun c => c.body.length)).sum

/-- Model of `extractEtaFromComments` (src/server/index.ts:988-1137).
The returned ETA object is represented by its serialized string (the
value stored in the cache); `none` models the function's `null`. -/
def extractEtaFromComments (cache : Cache) (now : Nat)
    (comments : List Comment) (assigneeLogins : List Str) (title : Str)
    (resp : EtaResp) : ExtractOut :=
  if comments.isEmpty then ⟨none, cache, false⟩
  else if (msCommentsOf assigneeLogins comments).isEmpty then
    ⟨none, cache, false⟩
  else
    gatewayStep cache now (etaKeyOf title assigneeLogins comments) none
      (etaCallPath cache now (etaKeyOf title assigneeLogins comments) resp)

/-- Fingerprint of the issue analysis task (src/server/index.ts:1513):
`analysis_` + normalized title (30 chars) + body length + comment
count. -/
def analysisKey (title : Str) (bodyLen commentCount : Nat) : Str :=
  "analysis_".toList ++ normalizeTitleN 30 title
    ++ '_' :: natDigits bodyLen ++ '_' :: natDigits commentCount

/-- Outcome of the external call inside the issue analysis, abstracting
the prompt and JSON parsing (src/server/index.ts:1590-1626): request
threw; missing/empty content; unparseable content; parsed object missing
the expected fields; or a complete parsed object serialized as
`payload` (the `JSON.stringify(parsed)` string). -/
inductive AnalysisResp where
  | err : AnalysisResp
  | okEmpty : AnalysisResp
  | okUnparseable : AnalysisResp
  | okMissingFields : AnalysisResp
  | okParsed (payload : Str) : AnalysisResp
deriving DecidableEq, Repr

/-- The external-call branch of `analyzeIssueWithAI`
(src/server/index.ts:1537-1626): thrown errors and unparseable content
persist a failed null entry; an empty response or one missing the
expected fields persists a non-failed null entry; a complete parsed
object persists its serialization. -/
def analysisCallPath (cache : Cache) (now : Nat) (cacheKey : Str)
    (resp : AnalysisResp) : ExtractOut :=
  match resp with
  | .err => ⟨none, saveAICache cache cacheKey none now true, true⟩
  | .okEmpty => ⟨none, saveAICache cache cacheKey none now false, true⟩
  | .okUnparseable => ⟨none, saveAICache cache cacheKey none now true, true⟩
  | .okMissingFields => ⟨none, saveAICache cache cacheKey none now false, true⟩
  | .okParsed payload =>
    ⟨some payload, saveAICache cache cacheKey (some payload) now false, true⟩

/-- Model of `analyzeIssueWithAI` (src/server/index.ts:1502-1627).  The
returned analysis object is represented by its serialized string. -/
def analyzeIssueWithAI (cache : Cache) (now : Nat) (title body : Str)
    (comments : List Comment) (resp : AnalysisResp) : ExtractOut :=
  if jsTrim body = [] then ⟨none, cache, false⟩
  else
    let cacheKey := analysisKey title body.length comments.length
    gatewayStep cache now cacheKey none
      (analysisCallPath cache now cacheKey resp)

/-!
Batch enrichment loops.  Both `GET /api/roadmap`
(src/server/index.ts:1315-1410, `CONCURRENCY_LIMIT = 8`) and
`GET /api/aks-issues` (src/server/index.ts:1817-1880,
`CONCURRENCY_LIMIT = 5`) slice the item list into consecutive
`CONCURRENCY_LIMIT`-sized batches, run every item of a batch
concurrently under one `Promise.all`, and append the batch's results
(in submission order, with `null` results dropped) before the next
batch starts.  Each item's enrichment is abstracted as a function
`f : item → Option enriched`; `none` models the `null` returned for a
record with no title.
-/

/-- Consecutive batches of (at most) `limit` items, in order.  The fuel
is only a structural-termination device; with `limit > 0` the initial
fuel `l.length` never runs out. -/
def batchesGo (limit : Nat) : Nat → List α → List (List α)
  | 0, _ => []
  | fuel + 1, l =>
    if l.isEmpty then []
    else l.take limit :: batchesGo limit fuel (l.drop limit)

/-- The batches the loop `for (let i = 0; i < items.length;
i += CONCURRENCY_LIMIT)` processes: `items.slice(i, i + limit)` for each
iteration. -/
def batchesOf (limit : Nat) (l : List α) : List (List α) :=
  batchesGo limit l.length l

/-- The full batched enrichment loop: per batch, run `f` on each item
(one `Promise.all`), keep non-null results in submission order, and
concatenate batch results in batch order. -/
def processBatches (limit : Nat) (f : α → Option β) (l : List α) : List β :=
  ((batchesOf limit l).map (fun b => b.filterMap f)).flatten

/-- The largest number of item enrichments simultaneously in flight:
the strict batch barrier (`await Promise.all` per batch) means exactly
the items of the current batch are in flight, so this is the size of
the largest batch. -/
def maxInFlight (limit : Nat) (l : List α) : Nat :=
  ((batchesOf limit l).map (fun b => b.length)).foldr max 0

/-!
Last-comment / needsResponse derivation, shared by both handlers
(src/server/index.ts:1358-1372 and 1839-1854): filter out comments with
no author, sort newest first by `createdAt`, take the head as
`lastComment`, and set `needsResponse` iff the last comment's author is
not among the record's assignee logins.
-/

/-- Sort order of the comparator `(a, b) => new Date(b.createdAt).getTime()
- new Date(a.createdAt).getTime()`: newest first. -/
def commentNewerFirst (a b : Comment) : Prop := b.createdAt ≤ a.createdAt

instance : DecidableRel commentNewerFirst :=
  fun a b => Nat.decLe b.createdAt a.createdAt

instance : IsTotal Comment commentNewerFirst :=
  ⟨fun a b => Nat.le_total b.createdAt a.createdAt⟩

instance : IsTrans Comment commentNewerFirst :=
  ⟨fun _ _ _ hab hbc => Nat.le_trans hbc hab⟩

/-- The `sortedComments` list: authored comments, newest first.
`Array.prototype.sort` is modelled by (stable) insertion sort. -/
def sortedCommentsOf (comments : List Comment) : List Comment :=
  List.insertionSort commentNewerFirst
    (comments.filter (fun c => c.author.isSome))

/-- The `lastComment` value: head of the sorted list, if any. -/
def lastCommentOf (comments : List Comment) : Option Comment :=
  (sortedCommentsOf comments).head?

/-- The `needsResponse` derivation: true iff there is a last comment and
its author's login is not among the assignee logins. -/
def needsResponseOf (comments : List Comment) (assigneeLogins : List Str) :
    Bool :=
  match lastCommentOf comments with
  | some c =>
    match c.author with
    | some a => !(assigneeLogins.contains a.login)
    | none => false
  | none => false

/-!
Paged fetch loops.  Both loops request page `0, 1, 2, …`, carrying the
`hasNextPage` flag of the previous response, and stop when the flag is
false or a fixed page ceiling is reached.  The upstream is modelled as a
function from the page index to an optional page `(items, hasNextPage)`;
`none` models a structurally failed page request (for the roadmap loop a
missing `projectV2`, which `throw`s; for the issues loop a caught fetch
error, which `break`s with the items accumulated so far).
-/

/-- One paged fetch loop with page ceiling `cap`.  `errAbort` selects the
error behaviour: `true` propagates the failure (`throw`, roadmap loop),
`false` breaks returning the accumulated items (issues loop).  Returns
the fetch outcome together with the final `pageCount` (the number of
page requests issued).  The fuel starts at `cap` and never runs out
before the `pageCount < cap` guard stops the loop. -/
def pagedFetchGo (cap : Nat) (errAbort : Bool)
    (pages : Nat → Option (List α × Bool)) :
    Nat → List α → Bool → Nat → Except Unit (List α) × Nat
  | 0, acc, _, count => (.ok acc, count)
  | _ + 1, acc, false, count => (.ok acc, count)
  | fuel + 1, acc, true, count =>
    if count < cap then
      match pages count with
      | none =>
        if errAbort then (.error (), count + 1) else (.ok acc, count + 1)
      | some (xs, hn) =>
        pagedFetchGo cap errAbort pages fuel (acc ++ xs) hn (count + 1)
    else (.ok acc, count)

/-- The project-items paging loop of `GET /api/roadmap`
(src/server/index.ts:1213-1306): `MAX_PAGES = 50`, a page response
without project data throws (fatal to the refresh). -/
def roadmapFetch (pages : Nat → Option (List α × Bool)) :
    Except Unit (List α) × Nat :=
  pagedFetchGo 50 true pages 50 [] true 0

/-- The open-issues paging loop `fetchAKSOpenIssues`
(src/server/index.ts:1630-1740): `MAX_PAGES = 20`, a failed page request
breaks the loop and returns the issues accumulated so far. -/
def fetchAKSOpenIssues (pages : Nat → Option (List α × Bool)) :
    Except Unit (List α) × Nat :=
  pagedFetchGo 20 false pages 20 [] true 0

/-!
The roadmap request handler `GET /api/roadmap`
(src/server/index.ts:1192-1425).  Raw project items are abstracted by a
type `α` together with a content test (`item.content`, truthy iff the
item is an issue) and a per-item enrichment `α → Option β` (`null` for
no-title records); the whole enrichment pipeline of one item — AI
extraction, comment fetch, ETA, lastComment — is folded into that
function since the snapshot-atomicity property does not depend on it.
-/

/-- Row of the `github_cache` table holding a whole-collection snapshot. -/
structure GHCacheSnap (β : Type) where
  data : List β
  timestamp : Nat
deriving DecidableEq, Repr

/-- Model of `loadGitHubCache` (src/server/index.ts:651-663): the
snapshot row, provided it is younger than `GITHUB_CACHE_DURATION`. -/
def loadGitHubCache (store : Option (GHCacheSnap β)) (now : Nat) :
    Option (GHCacheSnap β) :=
  match store with
  | some snap =>
    if now - snap.timestamp < GITHUB_CACHE_DURATION then some snap else none
  | none => none

/-- Response sent by the handler: the enriched data, or the generic
500 error produced by the surrounding `catch`. -/
inductive HandlerResp (β : Type) where
  | ok (data : List β) : HandlerResp β
  | serverError : HandlerResp β
deriving DecidableEq, Repr

/-- Model of the `GET /api/roadmap` handler: serve the cached snapshot
on a non-forced request with a valid snapshot; otherwise run the paging
loop, and on its structural failure answer 500 without touching the
store (the `catch` at src/server/index.ts:1421-1424); on success filter
to items with content, enrich in batches of 8, save the new snapshot
(`saveGitHubCache`) and answer with the data. -/
def roadmapHandler (hasContent : α → Bool) (perItem : α → Option β)
    (store : Option (GHCacheSnap β)) (now : Nat) (force : Bool)
    (pages : Nat → Option (List α × Bool)) :
    HandlerResp β × Option (GHCacheSnap β) :=
  match force, loadGitHubCache store now with
  | false, some snap => (.ok snap.data, store)
  | _, _ =>
    match (roadmapFetch pages).1 with
    | .error _ => (.serverError, store)
    | .ok allItems =>
      let validItems := allItems.filter hasContent
      let roadmapItems := processBatches 8 perItem validItems
      (.ok roadmapItems, some ⟨roadmapItems, now⟩)

/-!
Roadmap-overlap filter of `GET /api/aks-issues`.
-/

/-- Model of `getRoadmapIssueIds` (src/server/index.ts:1743-1780): the
ids of the roadmap project's issues; the `catch` turns any fetch error
(`resp = none`) into an empty set.  The JS `Set` is modelled by the list
of ids added to it (only membership is ever used). -/
def getRoadmapIssueIds (resp : Option (List (Option Str))) : List Str :=
  match resp with
  | some nodes => nodes.filterMap id
  | none => []

/-- Issue record as far as the overlap filter is concerned. -/
structure AksIssueRec where
  id : Str
deriving DecidableEq, Repr

/-- The filter applied in the issues handler
(src/server/index.ts:1810): drop issues whose id is in the roadmap id
set. -/
def filterRoadmapIssues (ids : List Str) (issues : List AksIssueRec) :
    List AksIssueRec :=
  issues.filter (fun i => !(ids.contains i.id))

/-!
Helper lemmas.
-/

/-- Reading a key back right after saving it yields the saved row. -/
theorem loadAICache_save_self (c : Cache) (k : Str) (r : Option Str)
    (t : Nat) (f : Bool) :
    loadAICache (saveAICache c k r t f) k = some ⟨r, t, f⟩ := by
  simp [loadAICache, saveAICache, List.find?]

/-- A valid non-failed entry is served from the cache unchanged. -/
theorem gatewayStep_hit {cache : Cache} {now : Nat} {key : Str}
    {e : CacheEntry} (h : loadAICache cache key = some e)
    (hv : now - e.timestamp < CACHE_DURATION) (hf : e.failed = false)
    (o : Option Str) (cp : ExtractOut) :
    gatewayStep cache now key o cp = ⟨e.result, cache, false⟩ := by
  simp [gatewayStep, h, isCacheValid, hv, hf]

/-- A failed entry younger than the cooldown returns the cooldown value
with no call. -/
theorem gatewayStep_cooldown {cache : Cache} {now : Nat} {key : Str}
    {e : CacheEntry} (h : loadAICache cache key = some e)
    (hf : e.failed = true) (hc : now - e.timestamp < ONE_MINUTE)
    (o : Option Str) (cp : ExtractOut) :
    gatewayStep cache now key o cp = ⟨o, cache, false⟩ := by
  have hv : now - e.timestamp < CACHE_DURATION := by
    have : ONE_MINUTE ≤ CACHE_DURATION := by
      simp [ONE_MINUTE, CACHE_DURATION]
    omega
  simp [gatewayStep, h, isCacheValid, hv, hf, hc]

/-- A failed entry at least one cooldown old proceeds to the external
call, whether or not the entry is still inside the success TTL. -/
theorem gatewayStep_staleFailed {cache : Cache} {now : Nat} {key : Str}
    {e : CacheEntry} (h : loadAICache cache key = some e)
    (hf : e.failed = true) (hc : ONE_MINUTE ≤ now - e.timestamp)
    (o : Option Str) (cp : ExtractOut) :
    gatewayStep cache now key o cp = cp := by
  by_cases hv : now - e.timestamp < CACHE_DURATION
  · simp [gatewayStep, h, isCacheValid, hv, hf, Nat.not_lt.mpr hc]
  · simp [gatewayStep, h, isCacheValid, hv]

/-- A cache miss proceeds to the external call. -/
theorem gatewayStep_miss {cache : Cache} {now : Nat} {key : Str}
    (h : loadAICache cache key = none) (o : Option Str) (cp : ExtractOut) :
    gatewayStep cache now key o cp = cp := by
  simp [gatewayStep, h]

/-- If the policy issued the external call, its outcome is exactly the
call branch (all cache-serving branches set `madeCall = false`). -/
theorem gatewayStep_of_madeCall {cache : Cache} {now : Nat} {key : Str}
    {o : Option Str} {cp : ExtractOut}
    (h : (gatewayStep cache now key o cp).madeCall = true) :
    gatewayStep cache now key o cp = cp := by
  unfold gatewayStep at h ⊢
  cases hl : loadAICache cache key <;> simp only [hl] at h ⊢
  split_ifs at h ⊢ <;> simp_all

/-- Concatenating the batches gives back the original list. -/
theorem batchesGo_flatten {α : Type} {limit : Nat} (hl : 0 < limit) :
    ∀ (fuel : Nat) (l : List α), l.length ≤ fuel →
      (batchesGo limit fuel l).flatten = l := by
  intro fuel
  induction fuel with
  | zero =>
    intro l h
    have : l = [] := by cases l <;> simp_all
    subst this
    simp [batchesGo]
  | succ fuel ih =>
    intro l h
    by_cases he : l.isEmpty
    · rw [List.isEmpty_iff] at he
      subst he
      simp [batchesGo]
    · simp only [batchesGo, he, if_false, Bool.false_eq_true]
      rw [List.flatten_cons, ih (l.drop limit) (by
        have := List.length_drop limit l
        have hne : l ≠ [] := by
          intro hc; subst hc; simp at he
        have : 0 < l.length := List.length_pos.mpr hne
        omega)]
      exact List.take_append_drop limit l

/-- Every batch has at most `limit` items. -/
theorem batchesGo_length_le {α : Type} (limit : Nat) :
    ∀ (fuel : Nat) (l b : List α), b ∈ batchesGo limit fuel l →
      b.length ≤ limit := by
  intro fuel
  induction fuel with
  | zero => simp [batchesGo]
  | succ fuel ih =>
    intro l b hb
    by_cases he : l.isEmpty
    · simp [batchesGo, he] at hb
    · simp only [batchesGo, he, if_false, Bool.false_eq_true] at hb
      rcases List.mem_cons.mp hb with rfl | hb
      · exact List.length_take_le limit l
      · exact ih _ _ hb

/-- A fold of `max` over a list of numbers all bounded by `n` is
bounded by `n`. -/
theorem foldr_max_le {l : List Nat} {n : Nat} (h : ∀ x ∈ l, x ≤ n) :
    l.foldr max 0 ≤ n := by
  induction l with
  | nil => simp
  | cons a l ih =>
    simp only [List.foldr_cons]
    exact max_le (h a (List.mem_cons_self a l))
      (ih fun x hx => h x (List.mem_cons_of_mem a hx))

/-- The loop never issues more page requests than its ceiling. -/
theorem pagedFetchGo_count_le {α : Type} (cap : Nat) (eA : Bool)
    (pages : Nat → Option (List α × Bool)) :
    ∀ (fuel : Nat) (acc : List α) (hasNext : Bool) (count : Nat),
      count ≤ cap →
      (pagedFetchGo cap eA pages fuel acc hasNext count).2 ≤ cap := by
  intro fuel
  induction fuel with
  | zero =>
    intro acc hn count h
    simpa [pagedFetchGo] using h
  | succ fuel ih =>
    intro acc hn count h
    cases hn with
    | false => simpa [pagedFetchGo] using h
    | true =>
      by_cases hc : count < cap
      · rw [pagedFetchGo, if_pos hc]
        cases hp : pages count with
        | none => cases eA <;> simp <;> omega
        | some p =>
          obtain ⟨xs, hnn⟩ := p
          exact ih _ _ _ (by omega)
      · rw [pagedFetchGo, if_neg hc]
        exact h

/-- Once the previous page reported no further pages, the loop stops
immediately: the request count stays where it is. -/
theorem pagedFetchGo_noNext {α : Type} (cap : Nat) (eA : Bool)
    (pages : Nat → Option (List α × Bool)) (fuel : Nat) (acc : List α)
    (count : Nat) :
    (pagedFetchGo cap eA pages fuel acc false count).2 = count := by
  cases fuel <;> simp [pagedFetchGo]

/-- If pages before `k` all report a further page and page `k` reports
none, the loop issues exactly `k + 1` requests (given enough ceiling). -/
theorem pagedFetchGo_stops {α : Type} (cap : Nat) (eA : Bool)
    (pages : Nat → Option (List α × Bool)) {k : Nat} {xs : List α}
    (hk : k < cap)
    (hprev : ∀ j, j < k → ∃ ys, pages j = some (ys, true))
    (hlast : pages k = some (xs, false)) :
    ∀ (fuel count : Nat) (acc : List α), count + fuel = cap → count ≤ k →
      (pagedFetchGo cap eA pages fuel acc true count).2 = k + 1 := by
  intro fuel
  induction fuel with
  | zero =>
    intro count acc hfc hck
    omega
  | succ fuel ih =>
    intro count acc hfc hck
    have hc : count < cap := by omega
    rw [pagedFetchGo, if_pos hc]
    rcases Nat.lt_or_ge count k with hlt | hge
    · obtain ⟨ys, hy⟩ := hprev count hlt
      rw [hy]
      exact ih (count + 1) (acc ++ ys) (by omega) (by omega)
    · have : count = k := by omega
      subst this
      rw [hlast]
      exact pagedFetchGo_noNext cap eA pages fuel (acc ++ xs) (count + 1)

/-- If the timeline extraction issued the external call, its whole
outcome is the call branch. -/
theorem extract_of_madeCall {cache : Cache} {now : Nat} {body title : Str}
    {resp : AIResp} (hb : ¬ jsTrim body = [])
    (hm : (extractAvailabilityDateWithAI cache now body title resp).madeCall
      = true) :
    extractAvailabilityDateWithAI cache now body title resp
      = timelineCallPath cache now (getCacheKey title body) resp := by
  unfold extractAvailabilityDateWithAI at hm ⊢
  rw [if_neg hb] at hm ⊢
  exact gatewayStep_of_madeCall hm

/-- The cache after the policy block is either untouched (served from
cache) or the call branch's cache. -/
theorem gatewayStep_cache_cases (cache : Cache) (now : Nat) (key : Str)
    (o : Option Str) (cp : ExtractOut) :
    (gatewayStep cache now key o cp).cache = cache ∨
      gatewayStep cache now key o cp = cp := by
  unfold gatewayStep
  cases hl : loadAICache cache key <;> simp only [hl]
  · simp
  · split_ifs <;> simp

/-- Every entry reachable from `loadAICache` is a member of the table. -/
theorem loadAICache_mem {c : Cache} {k : Str} {e : CacheEntry}
    (h : loadAICache c k = some e) : ∃ p ∈ c, p.2 = e := by
  unfold loadAICache at h
  cases hf : List.find? (fun p => p.1 == k) c with
  | none => rw [hf] at h; simp at h
  | some p =>
    rw [hf] at h
    exact ⟨p, List.mem_of_find?_eq_some hf, by simpa using h⟩

/-- Invariant of the claim: failed rows store a null result. -/
def FailedNull (c : Cache) : Prop :=
  ∀ p ∈ c, p.2.failed = true → p.2.result = none

/-- Invariant: no row stores the failure sentinel as its result. -/
def SentinelFree (c : Cache) : Prop :=
  ∀ p ∈ c, p.2.result ≠ some failureSentinel

/-- An upsert preserves `FailedNull` when a failed write carries a null
result. -/
theorem failedNull_save {c : Cache} {k : Str} {r : Option Str} {t : Nat}
    {f : Bool} (h : FailedNull c) (hr : f = true → r = none) :
    FailedNull (saveAICache c k r t f) := by
  intro p hp
  unfold saveAICache at hp
  rcases List.mem_cons.mp hp with rfl | hp
  · exact hr
  · exact h p (List.mem_filter.mp hp).1

/-- An upsert preserves `SentinelFree` when the written result is not
the sentinel. -/
theorem sentinelFree_save {c : Cache} {k : Str} {r : Option Str} {t : Nat}
    {f : Bool} (h : SentinelFree c) (hr : r ≠ some failureSentinel) :
    SentinelFree (saveAICache c k r t f) := by
  intro p hp
  unfold saveAICache at hp
  rcases List.mem_cons.mp hp with rfl | hp
  · exact hr
  · exact h p (List.mem_filter.mp hp).1

/-- The proviso under which a successful timeline response cannot plant
the sentinel: its trimmed content is not the sentinel string itself. -/
def respNotSentinel : AIResp → Prop
  | .ok (some s) => jsTrim s ≠ failureSentinel
  | _ => True

/-- Proviso for the ETA operation: a successful payload (in the code, a
`JSON.stringify` of an object, which starts with a brace) is not the
sentinel. -/
def etaRespNotSentinel : EtaResp → Prop
  | .okParsed p => p ≠ failureSentinel
  | _ => True

/-- Proviso for the analysis operation, as for the ETA operation. -/
def analysisRespNotSentinel : AnalysisResp → Prop
  | .okParsed p => p ≠ failureSentinel
  | _ => True

/-- Under the proviso, the post-processed timeline result is never the
sentinel. -/
theorem finalTimelineResult_ne_sentinel {content : Option Str}
    (h : respNotSentinel (.ok content)) :
    finalTimelineResult content ≠ some failureSentinel := by
  cases content with
  | none => simp [finalTimelineResult]
  | some s =>
    show (if ((jsTrim s).isEmpty || (jsLower (jsTrim s) == "none".toList)
          || jsIncludes (jsLower (jsTrim s)) "no timeline".toList) = true
        then none else some (jsTrim s)) ≠ some failureSentinel
    split_ifs
    · simp
    · simpa using h

/-- FailedNull is preserved by the timeline extraction. -/
theorem extract_failedNull (cache : Cache) (now : Nat) (body title : Str)
    (resp : AIResp) (h : FailedNull cache) :
    FailedNull (extractAvailabilityDateWithAI cache now body title resp).cache
    := by
  unfold extractAvailabilityDateWithAI
  split_ifs with hb
  · exact h
  · rcases gatewayStep_cache_cases cache now (getCacheKey title body)
      (some failureSentinel)
      (timelineCallPath cache now (getCacheKey title body) resp) with hc | hc
    · rw [hc]; exact h
    · rw [hc]
      cases resp with
      | err => exact failedNull_save h (fun _ => rfl)
      | ok content => exact failedNull_save h (fun hf => nomatch hf)

/-- FailedNull is preserved by the ETA extraction. -/
theorem eta_failedNull (cache : Cache) (now : Nat)
    (comments : List Comment) (logins : List Str) (title : Str)
    (resp : EtaResp) (h : FailedNull cache) :
    FailedNull
      (extractEtaFromComments cache now comments logins title resp).cache
    := by
  unfold extractEtaFromComments
  split_ifs with h1 h2
  · exact h
  · exact h
  · rcases gatewayStep_cache_cases cache now _ none
      (etaCallPath cache now _ resp) with hc | hc
    · rw [hc]; exact h
    · rw [hc]
      cases resp <;>
        first
          | exact failedNull_save h (fun _ => rfl)
          | exact failedNull_save h (fun hf => nomatch hf)

/-- FailedNull is preserved by the issue analysis. -/
theorem analysis_failedNull (cache : Cache) (now : Nat)
    (title body : Str) (comments : List Comment) (resp : AnalysisResp)
    (h : FailedNull cache) :
    FailedNull (analyzeIssueWithAI cache now title body comments resp).cache
    := by
  unfold analyzeIssueWithAI
  split_ifs with h1
  · exact h
  · rcases gatewayStep_cache_cases cache now _ none
      (analysisCallPath cache now _ resp) with hc | hc
    · rw [hc]; exact h
    · rw [hc]
      cases resp <;>
        first
          | exact failedNull_save h (fun _ => rfl)
          | exact failedNull_save h (fun hf => nomatch hf)

/-- SentinelFree is preserved by the timeline extraction under the
proviso. -/
theorem extract_sentinelFree (cache : Cache) (now : Nat)
    (body title : Str) (resp : AIResp) (h : SentinelFree cache)
    (hr : respNotSentinel resp) :
    SentinelFree
      (extractAvailabilityDateWithAI cache now body title resp).cache := by
  unfold extractAvailabilityDateWithAI
  split_ifs with hb
  · exact h
  · rcases gatewayStep_cache_cases cache now (getCacheKey title body)
      (some failureSentinel)
      (timelineCallPath cache now (getCacheKey title body) resp) with hc | hc
    · rw [hc]; exact h
    · rw [hc]
      cases resp with
      | err => exact sentinelFree_save h (by simp)
      | ok content =>
        exact sentinelFree_save h (finalTimelineResult_ne_sentinel hr)

/-- SentinelFree is preserved by the ETA extraction under the proviso. -/
theorem eta_sentinelFree (cache : Cache) (now : Nat)
    (comments : List Comment) (logins : List Str) (title : Str)
    (resp : EtaResp) (h : SentinelFree cache)
    (hr : etaRespNotSentinel resp) :
    SentinelFree
      (extractEtaFromComments cache now comments logins title resp).cache
    := by
  unfold extractEtaFromComments
  split_ifs with h1 h2
  · exact h
  · exact h
  · rcases gatewayStep_cache_cases cache now _ none
      (etaCallPath cache now _ resp) with hc | hc
    · rw [hc]; exact h
    · rw [hc]
      cases resp with
      | okParsed p => exact sentinelFree_save h (by simpa using hr)
      | err => exact sentinelFree_save h (by simp)
      | okEmpty => exact sentinelFree_save h (by simp)
      | okUnparseable => exact sentinelFree_save h (by simp)
      | okNoDate => exact sentinelFree_save h (by simp)

/-- SentinelFree is preserved by the issue analysis under the proviso. -/
theorem analysis_sentinelFree (cache : Cache) (now : Nat)
    (title body : Str) (comments : List Comment) (resp : AnalysisResp)
    (h : SentinelFree cache) (hr : analysisRespNotSentinel resp) :
    SentinelFree
      (analyzeIssueWithAI cache now title body comments resp).cache := by
  unfold analyzeIssueWithAI
  split_ifs with h1
  · exact h
  · rcases gatewayStep_cache_cases cache now _ none
      (analysisCallPath cache now _ resp) with hc | hc
    · rw [hc]; exact h
    · rw [hc]
      cases resp with
      | okParsed p => exact sentinelFree_save h (by simpa using hr)
      | err => exact sentinelFree_save h (by simp)
      | okEmpty => exact sentinelFree_save h (by simp)
      | okUnparseable => exact sentinelFree_save h (by simp)
      | okMissingFields => exact sentinelFree_save h (by simp)

/-- Decimal digit characters are never the underscore. -/
theorem digitChar_ne_underscore : ∀ d, d < 10 → digitChar d ≠ '_' := by
  decide

/-- Decimal digit characters are pairwise distinct. -/
theorem digitChar_inj10 :
    ∀ a, a < 10 → ∀ b, b < 10 → digitChar a = digitChar b → a = b := by
  decide

/-- The fuel of the decimal renderer is irrelevant once above the
argument. -/
theorem natDigitsGo_irrel :
    ∀ f1 f2 n, n < f1 → n < f2 → natDigitsGo f1 n = natDigitsGo f2 n := by
  intro f1
  induction f1 with
  | zero => intro f2 n h1 _; omega
  | succ f1 ih =>
    intro f2 n h1 h2
    cases f2 with
    | zero => omega
    | succ f2 =>
      by_cases hn : n < 10
      · simp [natDigitsGo, hn]
      · have hd : n / 10 < n := Nat.div_lt_self (by omega) (by omega)
        simp only [natDigitsGo, hn, if_false]
        rw [ih f2 (n / 10) (by omega) (by omega)]

/-- Any sufficient fuel computes `natDigits`. -/
theorem natDigits_eq_go {fuel n : Nat} (h : n < fuel) :
    natDigitsGo fuel n = natDigits n :=
  natDigitsGo_irrel fuel (n + 1) n h (Nat.lt_succ_self n)

/-- The decimal rendering is never empty. -/
theorem natDigits_ne_nil (n : Nat) : natDigits n ≠ [] := by
  have hstep : natDigits n
      = if n < 10 then [digitChar n]
        else natDigitsGo n (n / 10) ++ [digitChar (n % 10)] := rfl
  rw [hstep]
  by_cases hn : n < 10 <;> simp [hn]

/-- Every character of the decimal rendering is a digit character. -/
theorem natDigits_mem_digit :
    ∀ n c, c ∈ natDigits n → ∃ d, d < 10 ∧ c = digitChar d := by
  intro n
  induction n using Nat.strong_induction_on with
  | _ n ih =>
    intro c hc
    have hstep : natDigits n
        = if n < 10 then [digitChar n]
          else natDigitsGo n (n / 10) ++ [digitChar (n % 10)] := rfl
    rw [hstep] at hc
    by_cases hn : n < 10
    · rw [if_pos hn] at hc
      simp at hc
      exact ⟨n, hn, hc⟩
    · rw [if_neg hn] at hc
      rcases List.mem_append.mp hc with h1 | h2
      · have hd : n / 10 < n := Nat.div_lt_self (by omega) (by omega)
        rw [natDigits_eq_go hd] at h1
        exact ih (n / 10) hd c h1
      · simp at h2
        exact ⟨n % 10, Nat.mod_lt n (by omega), h2⟩

/-- The underscore never occurs in a decimal rendering, so the
underscore separator of the fingerprint is recoverable. -/
theorem natDigits_not_underscore {n : Nat} : '_' ∉ natDigits n := by
  intro hmem
  obtain ⟨d, hd, hc⟩ := natDigits_mem_digit n '_' hmem
  exact digitChar_ne_underscore d hd hc.symm

/-- Appending a last element is injective. -/
theorem append_singleton_inj {γ : Type} {xs ys : List γ} {x y : γ}
    (h : xs ++ [x] = ys ++ [y]) : xs = ys ∧ x = y := by
  have h' := congrArg List.reverse h
  simp only [List.reverse_append, List.reverse_cons, List.reverse_nil,
    List.nil_append, List.singleton_append] at h'
  injection h' with h1 h2
  exact ⟨List.reverse_inj.mp h2, h1⟩

/-- Decimal rendering is injective. -/
theorem natDigits_inj : ∀ m n, natDigits m = natDigits n → m = n := by
  intro m
  induction m using Nat.strong_induction_on with
  | _ m ih =>
    intro n h
    have hm : natDigits m
        = if m < 10 then [digitChar m]
          else natDigitsGo m (m / 10) ++ [digitChar (m % 10)] := rfl
    have hn : natDigits n
        = if n < 10 then [digitChar n]
          else natDigitsGo n (n / 10) ++ [digitChar (n % 10)] := rfl
    rw [hm, hn] at h
    by_cases h1 : m < 10 <;> by_cases h2 : n < 10
    · rw [if_pos h1, if_pos h2] at h
      simp at h
      exact digitChar_inj10 m h1 n h2 h
    · exfalso
      rw [if_pos h1, if_neg h2] at h
      have hd : n / 10 < n := Nat.div_lt_self (by omega) (by omega)
      rw [natDigits_eq_go hd] at h
      have hlen := congrArg List.length h
      simp only [List.length_append, List.length_singleton] at hlen
      have h0 : (natDigits (n / 10)).length = 0 := by omega
      exact natDigits_ne_nil (n / 10) (List.eq_nil_of_length_eq_zero h0)
    · exfalso
      rw [if_neg h1, if_pos h2] at h
      have hd : m / 10 < m := Nat.div_lt_self (by omega) (by omega)
      rw [natDigits_eq_go hd] at h
      have hlen := congrArg List.length h
      simp only [List.length_append, List.length_singleton] at hlen
      have h0 : (natDigits (m / 10)).length = 0 := by omega
      exact natDigits_ne_nil (m / 10) (List.eq_nil_of_length_eq_zero h0)
    · rw [if_neg h1, if_neg h2] at h
      have hdm : m / 10 < m := Nat.div_lt_self (by omega) (by omega)
      have hdn : n / 10 < n := Nat.div_lt_self (by omega) (by omega)
      rw [natDigits_eq_go hdm, natDigits_eq_go hdn] at h
      obtain ⟨hrec, hdig⟩ := append_singleton_inj h
      have e1 : m / 10 = n / 10 := ih (m / 10) hdm (n / 10) hrec
      have e2 : m % 10 = n % 10 :=
        digitChar_inj10 _ (Nat.mod_lt m (by omega)) _
          (Nat.mod_lt n (by omega)) hdig
      omega

/-- Splitting at an underscore separator whose right part is
underscore-free is unambiguous. -/
theorem append_underscore_inj :
    ∀ (a b s1 s2 : Str), '_' ∉ s1 → '_' ∉ s2 →
      a ++ '_' :: s1 = b ++ '_' :: s2 → a = b ∧ s1 = s2 := by
  intro a
  induction a with
  | nil =>
    intro b s1 s2 h1 h2 h
    cases b with
    | nil =>
      simp at h
      exact ⟨rfl, h⟩
    | cons d b' =>
      simp at h
      obtain ⟨hd, hs⟩ := h
      exfalso
      apply h1
      rw [hs]
      exact List.mem_append_right b' (List.mem_cons_self '_' s2)
  | cons c a' ih =>
    intro b s1 s2 h1 h2 h
    cases b with
    | nil =>
      simp at h
      obtain ⟨hd, hs⟩ := h
      exfalso
      apply h2
      rw [← hs]
      exact List.mem_append_right a' (List.mem_cons_self '_' s1)
    | cons d b' =>
      simp only [List.cons_append, List.cons.injEq] at h
      obtain ⟨hcd, ht⟩ := h
      obtain ⟨hab, hs⟩ := ih b' s1 s2 h1 h2 ht
      exact ⟨by rw [hcd, hab], hs⟩

/-!
Claim theorems.
-/

/-- C1.  Cache idempotence of the Inference Gateway: for every title and
non-empty body, when a first call at `now1` actually performs the
external inference call and that call succeeds (`.ok` response), then
every second call with the identical title and body whose time `now2`
lies within the 24h success TTL of the first call is served from the
cache: it issues no external call (so the pair issues exactly the one
call of the first invocation), returns byte-identical output to the
first call, and leaves the cache unchanged. -/
theorem cache_idempotence (cache : Cache) (now1 now2 : Nat)
    (body title : Str) (content : Option Str) (resp2 : AIResp)
    (hb : jsTrim body ≠ [])
    (hm : (extractAvailabilityDateWithAI cache now1 body title
      (.ok content)).madeCall = true)
    (h12 : now2 - now1 < CACHE_DURATION) :
    extractAvailabilityDateWithAI
        (extractAvailabilityDateWithAI cache now1 body title
          (.ok content)).cache
        now2 body title resp2
      = ⟨(extractAvailabilityDateWithAI cache now1 body title
            (.ok content)).result,
         (extractAvailabilityDateWithAI cache now1 body title
            (.ok content)).cache,
         false⟩ := by
  have h1 := extract_of_madeCall hb hm
  rw [h1]
  show extractAvailabilityDateWithAI
      (saveAICache cache (getCacheKey title body)
        (finalTimelineResult content) now1 false)
      now2 body title resp2
    = ⟨finalTimelineResult content,
       saveAICache cache (getCacheKey title body)
         (finalTimelineResult content) now1 false, false⟩
  unfold extractAvailabilityDateWithAI
  rw [if_neg hb]
  rw [gatewayStep_hit
    (loadAICache_save_self cache (getCacheKey title body)
      (finalTimelineResult content) now1 false) h12 rfl]

/-- C1 witness: a concrete first call on an empty cache (which issues
the external call), followed by a second call 1000ms later whose own
oracle even errors — the second call still returns the first call's
output unchanged, from cache, with no call issued. -/
theorem cache_idempotence_witness :
    extractAvailabilityDateWithAI
        (extractAvailabilityDateWithAI [] 0 "hello".toList "t".toList
          (.ok (some "Q2 2025".toList))).cache
        1000 "hello".toList "t".toList .err
      = ⟨(extractAvailabilityDateWithAI [] 0 "hello".toList "t".toList
            (.ok (some "Q2 2025".toList))).result,
         (extractAvailabilityDateWithAI [] 0 "hello".toList "t".toList
            (.ok (some "Q2 2025".toList))).cache,
         false⟩ :=
  cache_idempotence [] 0 1000 "hello".toList "t".toList
    (some "Q2 2025".toList) .err (by decide) (by decide) (by decide)

/-- C2 counterexample: the claim quantifies over every input whose cache
entry is marked failed, but an input whose body is all whitespace
short-circuits before the cache is consulted.  Body `" "` with title
`"t"` has the same fingerprint `t_1` as body `"x"`; with a failed entry
of age 1000ms (inside the 60s cooldown) stored at that key, the
operation returns `null` — not the sentinel the claim requires. -/
theorem failure_cooldown_cex :
    loadAICache [(getCacheKey "t".toList " ".toList, ⟨none, 0, true⟩)]
        (getCacheKey "t".toList " ".toList) = some ⟨none, 0, true⟩ ∧
    1000 - 0 < ONE_MINUTE ∧
    extractAvailabilityDateWithAI
        [(getCacheKey "t".toList " ".toList, ⟨none, 0, true⟩)] 1000
        " ".toList "t".toList .err
      = ⟨none, [(getCacheKey "t".toList " ".toList, ⟨none, 0, true⟩)],
          false⟩ ∧
    (none : Option Str) ≠ some failureSentinel := by
  refine ⟨by decide, by decide, by decide, by decide⟩

/-- C2 (amended).  Failure cooldown, for inputs whose body is non-empty
after trimming (whitespace-only bodies short-circuit to `null` before
the cache is read): when the input's cache entry is marked failed, a
call inside the 60s cooldown returns the sentinel with no external call
and an unchanged cache, and a call at least 60s after the failure
issues a new external call. -/
theorem failure_cooldown (cache : Cache) (now : Nat) (body title : Str)
    (e : CacheEntry) (resp : AIResp)
    (hb : jsTrim body ≠ [])
    (hload : loadAICache cache (getCacheKey title body) = some e)
    (hf : e.failed = true) :
    (now - e.timestamp < ONE_MINUTE →
      extractAvailabilityDateWithAI cache now body title resp
        = ⟨some failureSentinel, cache, false⟩) ∧
    (ONE_MINUTE ≤ now - e.timestamp →
      (extractAvailabilityDateWithAI cache now body title resp).madeCall
        = true) := by
  constructor
  · intro hc
    unfold extractAvailabilityDateWithAI
    rw [if_neg hb, gatewayStep_cooldown hload hf hc]
  · intro hc
    unfold extractAvailabilityDateWithAI
    rw [if_neg hb, gatewayStep_staleFailed hload hf hc]
    cases resp <;> rfl

/-- C2 witness: a failed entry of age 1000ms under the key of the
non-whitespace body `"x"` returns the sentinel with no call; the same
entry at age 60s leads to a fresh external call. -/
theorem failure_cooldown_witness :
    extractAvailabilityDateWithAI
        [(getCacheKey "t".toList "x".toList, ⟨none, 0, true⟩)] 1000
        "x".toList "t".toList .err
      = ⟨some failureSentinel,
         [(getCacheKey "t".toList "x".toList, ⟨none, 0, true⟩)], false⟩ ∧
    (extractAvailabilityDateWithAI
        [(getCacheKey "t".toList "x".toList, ⟨none, 0, true⟩)] 60000
        "x".toList "t".toList .err).madeCall = true :=
  ⟨(failure_cooldown _ 1000 "x".toList "t".toList ⟨none, 0, true⟩ .err
      (by decide) (by decide) (by decide)).1 (by decide),
   (failure_cooldown _ 60000 "x".toList "t".toList ⟨none, 0, true⟩ .err
      (by decide) (by decide) (by decide)).2 (by decide)⟩

/-- C9 counterexample: the sentinel can be persisted, and returned from
a non-failed cache hit.  If the external service's successful response
text is exactly the sentinel string, the success path persists it with
`failed = false`; a later call within the TTL serves it from the cache
as a non-failed hit. -/
theorem sentinel_persistable_cex :
    (extractAvailabilityDateWithAI [] 0 "hello".toList "t".toList
        (.ok (some failureSentinel))).cache
      = [(getCacheKey "t".toList "hello".toList,
          ⟨some failureSentinel, 0, false⟩)] ∧
    extractAvailabilityDateWithAI
        [(getCacheKey "t".toList "hello".toList,
          ⟨some failureSentinel, 0, false⟩)]
        1000 "hello".toList "t".toList .err
      = ⟨some failureSentinel,
         [(getCacheKey "t".toList "hello".toList,
           ⟨some failureSentinel, 0, false⟩)],
         false⟩ := by
  refine ⟨by decide, by decide⟩

/-- C9 (amended).  Every cache entry written with `failed = true` stores
a null result — all failure paths of the three gateway operations call
`saveAICache(key, null, true)` — so a failed entry never stores the
sentinel.  Moreover, provided no successful response carries the
sentinel string itself (for the timeline operation, its trimmed content;
for the ETA and analysis operations, their serialized object payloads,
which in the code are `JSON.stringify` strings and never the sentinel),
a sentinel-free cache stays sentinel-free across every operation, and a
cache hit on a valid non-failed entry of a sentinel-free cache returns
that entry's result, which is never the sentinel. -/
theorem failed_entries_store_null :
    (∀ (cache : Cache) (now : Nat) (body title : Str) (resp : AIResp),
      FailedNull cache →
      FailedNull
        (extractAvailabilityDateWithAI cache now body title resp).cache) ∧
    (∀ (cache : Cache) (now : Nat) (comments : List Comment)
      (logins : List Str) (title : Str) (resp : EtaResp),
      FailedNull cache →
      FailedNull
        (extractEtaFromComments cache now comments logins title resp).cache) ∧
    (∀ (cache : Cache) (now : Nat) (title body : Str)
      (comments : List Comment) (resp : AnalysisResp),
      FailedNull cache →
      FailedNull
        (analyzeIssueWithAI cache now title body comments resp).cache) ∧
    (∀ (cache : Cache) (now : Nat) (body title : Str) (resp : AIResp),
      SentinelFree cache → respNotSentinel resp →
      SentinelFree
        (extractAvailabilityDateWithAI cache now body title resp).cache) ∧
    (∀ (cache : Cache) (now : Nat) (comments : List Comment)
      (logins : List Str) (title : Str) (resp : EtaResp),
      SentinelFree cache → etaRespNotSentinel resp →
      SentinelFree
        (extractEtaFromComments cache now comments logins title resp).cache) ∧
    (∀ (cache : Cache) (now : Nat) (title body : Str)
      (comments : List Comment) (resp : AnalysisResp),
      SentinelFree cache → analysisRespNotSentinel resp →
      SentinelFree
        (analyzeIssueWithAI cache now title body comments resp).cache) ∧
    (∀ (cache : Cache) (now : Nat) (body title : Str) (resp : AIResp)
      (e : CacheEntry),
      SentinelFree cache → jsTrim body ≠ [] →
      loadAICache cache (getCacheKey title body) = some e →
      e.failed = false → now - e.timestamp < CACHE_DURATION →
      (extractAvailabilityDateWithAI cache now body title resp).result
          = e.result ∧
        (extractAvailabilityDateWithAI cache now body title resp).result
          ≠ some failureSentinel) := by
  refine ⟨extract_failedNull, eta_failedNull, analysis_failedNull,
    extract_sentinelFree, eta_sentinelFree, analysis_sentinelFree,
    fun cache now body title resp e hs hb hload hf hv => ?_⟩
  have hout : extractAvailabilityDateWithAI cache now body title resp
      = ⟨e.result, cache, false⟩ := by
    unfold extractAvailabilityDateWithAI
    rw [if_neg hb, gatewayStep_hit hload hv hf]
  rw [hout]
  refine ⟨rfl, ?_⟩
  obtain ⟨p, hp, hpe⟩ := loadAICache_mem hload
  have := hs p hp
  rw [hpe] at this
  exact this

/-- C9 amended-claim witness: a concrete error call on the empty cache
preserves the failed-implies-null invariant, and a concrete non-failed
hit on a sentinel-free cache returns the stored (non-sentinel) result. -/
theorem failed_entries_store_null_witness :
    FailedNull
      (extractAvailabilityDateWithAI [] 5 "hello".toList "t".toList
        .err).cache ∧
    (extractAvailabilityDateWithAI
        [(getCacheKey "t".toList "hello".toList, ⟨some "Q2".toList, 0, false⟩)]
        1000 "hello".toList "t".toList .err).result = some "Q2".toList :=
  ⟨failed_entries_store_null.1 [] 5 "hello".toList "t".toList .err
      (by intro p hp; simp at hp),
   (failed_entries_store_null.2.2.2.2.2.2
      [(getCacheKey "t".toList "hello".toList, ⟨some "Q2".toList, 0, false⟩)]
      1000 "hello".toList "t".toList .err ⟨some "Q2".toList, 0, false⟩
      (by intro p hp; simp at hp; simp [hp]; decide)
      (by decide) (by decide) (by decide) (by decide)).1⟩

/-- C3 counterexample: the exception of the claim requires the raw
titles to coincide, but the fingerprint only sees the normalized title:
the distinct titles `a!` and `a?` (same body) already collide, because
both normalize to `a_`. -/
theorem fingerprint_sensitivity_cex :
    "a!".toList ≠ "a?".toList ∧
    getCacheKey "a!".toList "".toList = getCacheKey "a?".toList "".toList
    := by
  refine ⟨by decide, by decide⟩

/-- C3 (amended).  Fingerprint sensitivity up to normalization: two
inputs produce the same cache key exactly when their normalized titles
(non-alphanumerics replaced by underscores then truncated to 50
characters) coincide and their body lengths coincide; in particular any
two inputs differing in normalized title or in body length get
different keys. -/
theorem fingerprint_sensitivity (t1 b1 t2 b2 : Str) :
    getCacheKey t1 b1 = getCacheKey t2 b2 ↔
      (normalizeTitleN 50 t1 = normalizeTitleN 50 t2
        ∧ b1.length = b2.length) := by
  constructor
  · intro h
    unfold getCacheKey at h
    obtain ⟨ht, hd⟩ := append_underscore_inj _ _ _ _
      natDigits_not_underscore natDigits_not_underscore h
    exact ⟨ht, natDigits_inj _ _ hd⟩
  · rintro ⟨h1, h2⟩
    unfold getCacheKey
    rw [h1, h2]

/-- C4.  Order preservation of enrichment: the batched enrichment loop
(both the roadmap loop with batches of 8 and the issues loop with
batches of 5) produces exactly `filterMap` of the per-item enrichment
over the input sequence — output element `i` corresponds to input
element `i`, records enriched to `null` (no identifiable title) are
absent, and the relative order of all remaining records is the input
order. -/
theorem enrich_preserves_order {α β : Type} (limit : Nat)
    (f : α → Option β) (l : List α) (hl : 0 < limit) :
    processBatches limit f l = l.filterMap f := by
  unfold processBatches batchesOf
  rw [← List.filterMap_flatten,
    batchesGo_flatten hl l.length l (Nat.le_refl _)]

/-- C4 witness: the roadmap batch size 8 on a concrete 20-item list with
a concrete no-title predicate. -/
theorem enrich_preserves_order_witness :
    processBatches 8 (fun n => if n % 3 = 0 then none else some (n * 2))
        (List.range 20) =
      (List.range 20).filterMap
        (fun n => if n % 3 = 0 then none else some (n * 2)) :=
  enrich_preserves_order 8 _ (List.range 20) (by decide)

/-- C8.  Batch concurrency bound: with the strict batch barrier
(`await Promise.all` per batch), the enrichment calls in flight at any
time are exactly the items of the current batch, so the peak number in
flight is the largest batch size, which never exceeds the configured
limit — 8 for roadmap items and 5 for issues. -/
theorem batch_concurrency_bound {α : Type} :
    (∀ l : List α, maxInFlight 8 l ≤ 8) ∧
    (∀ l : List α, maxInFlight 5 l ≤ 5) := by
  constructor <;>
  · intro l
    apply foldr_max_le
    intro x hx
    obtain ⟨b, hb, rfl⟩ := List.mem_map.mp hx
    exact batchesGo_length_le _ _ _ _ hb

/-- C7.  Paged-fetch ceiling and termination: the project-items loop
issues at most 50 page requests and the open-issues loop at most 20,
for every upstream; and each loop stops requesting as soon as a page
reports no further pages (issuing exactly `k + 1` requests when page
`k` is the first to report none).  Termination for an arbitrary,
possibly unbounded upstream is witnessed by `roadmapFetch` and
`fetchAKSOpenIssues` being total functions. -/
theorem paged_fetch_ceiling {α : Type} :
    (∀ pages : Nat → Option (List α × Bool), (roadmapFetch pages).2 ≤ 50) ∧
    (∀ pages : Nat → Option (List α × Bool),
      (fetchAKSOpenIssues pages).2 ≤ 20) ∧
    (∀ (pages : Nat → Option (List α × Bool)) (k : Nat) (xs : List α),
      k < 50 → (∀ j, j < k → ∃ ys, pages j = some (ys, true)) →
      pages k = some (xs, false) → (roadmapFetch pages).2 = k + 1) ∧
    (∀ (pages : Nat → Option (List α × Bool)) (k : Nat) (xs : List α),
      k < 20 → (∀ j, j < k → ∃ ys, pages j = some (ys, true)) →
      pages k = some (xs, false) → (fetchAKSOpenIssues pages).2 = k + 1) := by
  refine ⟨fun pages => ?_, fun pages => ?_,
    fun pages k xs hk hprev hlast => ?_,
    fun pages k xs hk hprev hlast => ?_⟩
  · exact pagedFetchGo_count_le 50 true pages 50 [] true 0 (by omega)
  · exact pagedFetchGo_count_le 20 false pages 20 [] true 0 (by omega)
  · exact pagedFetchGo_stops 50 true pages hk hprev hlast 50 0 [] rfl
      (by omega)
  · exact pagedFetchGo_stops 20 false pages hk hprev hlast 20 0 [] rfl
      (by omega)

/-- C7 witness: an upstream whose page 0 reports no further pages makes
each loop issue exactly one request, within both ceilings. -/
theorem paged_fetch_ceiling_witness :
    (roadmapFetch (fun _ => some (([] : List Nat), false))).2 = 1 ∧
    (fetchAKSOpenIssues (fun _ => some (([] : List Nat), false))).2 = 1 :=
  ⟨(paged_fetch_ceiling (α := Nat)).2.2.1 _ 0 [] (by omega)
      (fun j hj => absurd hj (Nat.not_lt_zero j)) rfl,
    (paged_fetch_ceiling (α := Nat)).2.2.2 _ 0 [] (by omega)
      (fun j hj => absurd hj (Nat.not_lt_zero j)) rfl⟩

/-- C5.  Atomicity of the refresh on structural upstream failure: when a
refresh actually runs (forced, or no valid snapshot) and the primary
item-list paging fails structurally, the handler answers the generic
error and the stored snapshot is unchanged; and a later non-forced
request that finds a valid snapshot serves exactly its data, leaving the
store untouched. -/
theorem refresh_atomicity :
    (∀ (α β : Type) (hasContent : α → Bool) (perItem : α → Option β)
      (store : Option (GHCacheSnap β)) (now : Nat) (force : Bool)
      (pages : Nat → Option (List α × Bool)),
      (force = true ∨ loadGitHubCache store now = none) →
      (roadmapFetch pages).1 = .error () →
      roadmapHandler hasContent perItem store now force pages
        = (.serverError, store)) ∧
    (∀ (α β : Type) (hasContent : α → Bool) (perItem : α → Option β)
      (store : Option (GHCacheSnap β)) (now : Nat)
      (snap : GHCacheSnap β) (pages : Nat → Option (List α × Bool)),
      loadGitHubCache store now = some snap →
      roadmapHandler hasContent perItem store now false pages
        = (.ok snap.data, store)) := by
  constructor
  · intro α β hasContent perItem store now force pages href herr
    unfold roadmapHandler
    cases force with
    | false =>
      rcases href with hf | hl
      · exact absurd hf Bool.false_ne_true
      · simp only [hl, herr]
    | true =>
      cases hl : loadGitHubCache store now <;> simp only [hl, herr]
  · intro α β hasContent perItem store now snap pages hl
    unfold roadmapHandler
    simp only [hl]

/-- C5 witness: a store holding a snapshot `[7]` survives a forced
refresh whose very first page request fails structurally (the handler
answers the error), and a subsequent non-forced request serves `[7]`
from the untouched store. -/
theorem refresh_atomicity_witness :
    roadmapHandler (fun _ : Nat => true) (fun n : Nat => some n)
        (some ⟨[7], 0⟩) 10 true (fun _ => none)
      = (.serverError, some ⟨[7], 0⟩) ∧
    roadmapHandler (fun _ : Nat => true) (fun n : Nat => some n)
        (some ⟨[7], 0⟩) 10 false (fun _ => some ([1], false))
      = (.ok [7], some ⟨[7], 0⟩) :=
  ⟨refresh_atomicity.1 Nat Nat (fun _ => true) (fun n => some n)
      (some ⟨[7], 0⟩) 10 true (fun _ => none) (Or.inl rfl) rfl,
   refresh_atomicity.2 Nat Nat (fun _ => true) (fun n => some n)
      (some ⟨[7], 0⟩) 10 ⟨[7], 0⟩ (fun _ => some ([1], false)) (by decide)⟩

/-- C6.  needsResponse derivation: a record with zero comments has
`needsResponse = false`; and whenever a comment `c` with author `a` is
strictly the most recent comment of the record, `needsResponse` is the
negation of `a`'s membership in the assignee login set — false when the
last commenter is an assignee, true when the last commenter is not. -/
theorem needsResponse_derivation :
    (∀ assigneeLogins : List Str, needsResponseOf [] assigneeLogins = false) ∧
    (∀ (comments : List Comment) (assigneeLogins : List Str)
      (c : Comment) (a : Author),
      c ∈ comments → c.author = some a →
      (∀ c' ∈ comments, c' ≠ c → c'.createdAt < c.createdAt) →
      needsResponseOf comments assigneeLogins
        = !(assigneeLogins.contains a.login)) := by
  constructor
  · intro logins
    rfl
  · intro comments logins c a hc ha hmax
    have hc' : c ∈ comments.filter (fun x => x.author.isSome) :=
      List.mem_filter.mpr ⟨hc, by simp [ha]⟩
    have hperm := List.perm_insertionSort commentNewerFirst
      (comments.filter (fun x => x.author.isSome))
    have hcs : c ∈ sortedCommentsOf comments := by
      unfold sortedCommentsOf
      exact hperm.mem_iff.mpr hc'
    cases hS : sortedCommentsOf comments with
    | nil => rw [hS] at hcs; simp at hcs
    | cons h t =>
      have hsorted : List.Sorted commentNewerFirst (h :: t) := by
        rw [← hS]
        exact List.sorted_insertionSort commentNewerFirst _
      have hh : h = c := by
        rw [hS] at hcs
        rcases List.mem_cons.mp hcs with hcase | hct
        · exact hcase.symm
        · by_cases he : h = c
          · exact he
          · exfalso
            have h1 : commentNewerFirst h c :=
              List.rel_of_sorted_cons hsorted c hct
            have hhl : h ∈ comments.filter (fun x => x.author.isSome) := by
              apply hperm.mem_iff.mp
              show h ∈ sortedCommentsOf comments
              rw [hS]
              exact List.mem_cons_self h t
            have hhc : h ∈ comments := (List.mem_filter.mp hhl).1
            have h2 := hmax h hhc he
            unfold commentNewerFirst at h1
            omega
      subst hh
      unfold needsResponseOf lastCommentOf
      rw [hS]
      simp [ha]

/-- C6 witness: two concrete comments, the newer one authored by the
sole assignee, give `needsResponse = false`. -/
theorem needsResponse_derivation_witness :
    needsResponseOf
      [⟨some ⟨"alice".toList, none⟩, "done".toList, 50, "u1".toList⟩,
       ⟨some ⟨"bob".toList, none⟩, "ping".toList, 30, "u2".toList⟩]
      ["alice".toList] = false :=
  needsResponse_derivation.2
    [⟨some ⟨"alice".toList, none⟩, "done".toList, 50, "u1".toList⟩,
     ⟨some ⟨"bob".toList, none⟩, "ping".toList, 30, "u2".toList⟩]
    ["alice".toList]
    ⟨some ⟨"alice".toList, none⟩, "done".toList, 50, "u1".toList⟩
    ⟨"alice".toList, none⟩ (by decide) (by decide) (by decide)

/-- C10.  Implicit degrade of the roadmap-overlap filter: when the fetch
of roadmap issue ids fails, `getRoadmapIssueIds` returns the empty set
instead of propagating the error, so the overlap filter of the issues
refresh removes nothing and the refresh proceeds with every fetched
issue retained. -/
theorem roadmap_id_filter_degrade :
    getRoadmapIssueIds none = [] ∧
    ∀ issues : List AksIssueRec,
      filterRoadmapIssues (getRoadmapIssueIds none) issues = issues := by
  refine ⟨rfl, fun issues => ?_⟩
  simp [getRoadmapIssueIds, filterRoadmapIssues]

end GHTickets
